import Mathlib

/-!
# TimerServer: the dual stopwatch, its presence tracker and its dispatcher

A shallow embedding of `src/src/timer/server/server.cpp`.

Conventions of the embedding.

* Every method of `TimerServer` that touches the timer or presence arrays is a
  function on an explicit `State`; the value read from `millis()` is the
  argument `now` (one reading per call).
* `millis()` is the unsigned 32-bit millisecond counter of the board, so a
  difference `millis() - x` and a sum compared with `millis()` are computed
  modulo `2^32` (`msub`, `madd`).  The header `server.h` is not among the
  sources; the member arrays are modelled as arrays of naturals holding such
  counter values, with `0` as the "not set" value the code tests for.
* Lines written with `Serial.println` are returned as a list of strings next
  to the new state.
-/

namespace TimerServer

/-- Number of values of the 32-bit counter returned by `millis()`. -/
def WORD : Nat := 4294967296

/-- The C expression `a - b` on unsigned 32-bit operands. -/
def msub (a b : Nat) : Nat := (a + WORD - b % WORD) % WORD

/-- The C expression `a + b` on 32-bit operands, as compared with `millis()`. -/
def madd (a b : Nat) : Nat := (a + b) % WORD

/-- Modelled from the spec: the member variables of `TimerServer` read and written by the
timer, presence, dispatch and response code; their declarations are in `server.h`, which
is not among the sources.  Two timer slots (`_timers` = startedAt, `_results` = result,
`_stopped` = stoppedAt), four presence endpoints (`_pings` = lastPing, `_waitPairing`),
the sweep and toggle timestamps, the ping interval given to `setup`, and the index into
the brightness table. -/
@[ext]
structure State where
  _timers : Fin 2 → Nat
  _results : Fin 2 → Nat
  _stopped : Fin 2 → Nat
  _pings : Fin 4 → Nat
  _waitPairing : Fin 4 → Bool
  _lastPingCheck : Nat
  _pingInterval : Nat
  _lastTimerToggle : Fin 2 → Nat
  _matrixBrightnessState : Nat

/-- Modelled from the spec: `_timerToggleInterval`, the toggle debounce interval declared
in `server.h` (200 ms). -/
def _timerToggleInterval : Nat := 200

/-- Modelled from the spec: the default value of the parameter `ignoreMinInterval` of
`timerSet`, declared in `server.h`; a call `timerSet(timer, stop)` keeps the minimum
duration guard active. -/
def ignoreMinIntervalDefault : Bool := false

/-- The state of a freshly constructed server after `setup` stored the ping interval:
every timer and presence field is zero. -/
def State.init (pingInterval : Nat) : State where
  _timers := fun _ => 0
  _results := fun _ => 0
  _stopped := fun _ => 0
  _pings := fun _ => 0
  _waitPairing := fun _ => false
  _lastPingCheck := 0
  _pingInterval := pingInterval
  _lastTimerToggle := fun _ => 0
  _matrixBrightnessState := 0

/-- The method `TimerServer::timerSet` (server.cpp 90-104). -/
def timerSet (s : State) (now : Nat) (timer : Fin 2) (stop : Bool)
    (ignoreMinInterval : Bool) : State :=
  if !stop then
    if s._timers timer = 0 then
      { s with
        _timers := Function.update s._timers timer now
        _stopped := Function.update s._stopped timer 0 }
    else s
  else
    if !ignoreMinInterval && decide (msub now (s._timers timer) < 5000) then s
    else if s._timers timer > 0 then
      { s with
        _results := Function.update s._results timer (msub now (s._timers timer))
        _stopped := Function.update s._stopped timer now
        _timers := Function.update s._timers timer 0 }
    else s

/-- The three assignments `_timers[i] = 0; _results[i] = 0; _stopped[i] = 0;` that
`timerReset` performs on one slot. -/
def clearSlot (s : State) (i : Fin 2) : State :=
  { s with
    _timers := Function.update s._timers i 0
    _results := Function.update s._results i 0
    _stopped := Function.update s._stopped i 0 }

/-- The method `TimerServer::timerReset` (server.cpp 106-118).  The argument is `-1` (both slots, the
value `loop` resets with) or a slot index; every call site passes `-1`, `0` or `1`.  Any
other value would index outside the arrays and is modelled as leaving the state alone. -/
def timerReset (s : State) (timer : Int) : State :=
  if timer = -1 then clearSlot (clearSlot s 0) 1
  else if timer = 0 then clearSlot s 0
  else if timer = 1 then clearSlot s 1
  else s

/-- The index `n = timer == 0 ? 0 + stop : 2 + stop` of `clientPinged`. -/
def endpoint (timer : Fin 2) (stop : Bool) : Fin 4 :=
  if timer = 0 then ⟨0 + stop.toNat, by cases stop <;> decide⟩
  else ⟨2 + stop.toNat, by cases stop <;> decide⟩

/-- The line `clientPinged` prints on a connect transition. -/
def connectLine (timer : Fin 2) (stop : Bool) : String :=
  "[CLIENT]" ++ (if timer = 0 then "[T0]" else "[T1]")
    ++ (if stop = false then "[START]" else "[STOP]") ++ " Connected"

/-- The method `TimerServer::clientPinged` (server.cpp 120-130): the new state and the lines
printed. -/
def clientPinged (s : State) (now : Nat) (timer : Fin 2) (stop waiting : Bool) :
    State × List String :=
  let n := endpoint timer stop
  ({ s with
      _pings := Function.update s._pings n now
      _waitPairing := Function.update s._waitPairing n waiting },
    if s._pings n = 0 then [connectLine timer stop] else [])

/-- The line `pingCheck` prints when endpoint `i` is found stale. -/
def disconnectLine (i : Fin 4) : String :=
  "[CLIENT]" ++ (if i.val / 2 = 0 then "[T0]" else "[T1]")
    ++ (if i.val % 2 = 0 then "[START]" else "[STOP]") ++ " Disconnected"

/-- One iteration of the loop of `pingCheck` (server.cpp 136-142). -/
def pingCheckStep (now : Nat) (acc : State × List String) (i : Fin 4) :
    State × List String :=
  if acc.1._pings i > 0 ∧ madd (madd (acc.1._pings i) acc.1._pingInterval) 500 < now then
    ({ acc.1 with _pings := Function.update acc.1._pings i 0 }, acc.2 ++ [disconnectLine i])
  else acc

/-- The method `TimerServer::pingCheck` (server.cpp 132-144): the new state and the lines printed. -/
def pingCheck (s : State) (now : Nat) : State × List String :=
  if s._lastPingCheck > 0 ∧ madd s._lastPingCheck s._pingInterval > now then (s, [])
  else
    [(0 : Fin 4), 1, 2, 3].foldl (pingCheckStep now) ({ s with _lastPingCheck := now }, [])

/-- The method `TimerServer::timerToggle` (server.cpp 256-260). -/
def timerToggle (s : State) (now : Nat) (timer : Fin 2) : State :=
  if s._lastTimerToggle timer > 0
      ∧ madd (s._lastTimerToggle timer) _timerToggleInterval > now then s
  else
    let s1 := { s with _lastTimerToggle := Function.update s._lastTimerToggle timer now }
    if s1._timers timer = 0 then timerSet s1 now timer false ignoreMinIntervalDefault
    else timerSet s1 now timer true true

/-- Modelled from the spec: `RequestParameter`, one `key=value` pair of a parsed message
(declared outside the sources). -/
structure RequestParameter where
  name : String
  value : String
  deriving DecidableEq

/-- Modelled from the spec: the parameter list `parseMsg` fills from the message text
(`parseMsg` is not among the sources). -/
abbrev ParameterSet := List RequestParameter

/-- Modelled from the spec: `getParam`, the parameter with the given name, if any
(not among the sources). -/
def getParam (params : ParameterSet) (name : String) : Option RequestParameter :=
  params.find? (fun p => p.name == name)

/-- Modelled from the spec: `hasParam`, whether a parameter with the given name is present
(not among the sources). -/
def hasParam (params : ParameterSet) (name : String) : Bool :=
  (getParam params name).isSome

/-- The expression `getParam(params, name)->value()`; it is only evaluated where
`hasParam(params, name)` holds. -/
def paramValue (params : ParameterSet) (name : String) : String :=
  match getParam params name with
  | some p => p.value
  | none => ""

/-- The method `TimerServer::execMsg` (server.cpp 262-280), from the statement after the call of
`parseMsg` on: `params` is the parameter list parsed from the message.  Returns the new
state and the lines printed. -/
def execMsg (s : State) (now : Nat) (params : ParameterSet) : State × List String :=
  if hasParam params "t" then
    let timer : Fin 2 := if paramValue params "t" = "0" then 0 else 1
    if hasParam params "r" then (timerReset s ((timer.val : Nat) : Int), [])
    else
      if hasParam params "s" then
        let stop : Bool := if paramValue params "s" = "0" then false else true
        let waiting : Bool :=
          if hasParam params "w" && decide (paramValue params "w" = "1") then true else false
        if hasParam params "p" then clientPinged s now timer stop waiting
        else (timerSet s now timer stop ignoreMinIntervalDefault, [])
      else (timerToggle s now timer, [])
  else (s, [])

/-- One iteration of the loop of `getResponse` (server.cpp 285-307).  The table
`_matrixBrightness` is not needed here. -/
def getResponseStep (s : State) (now : Nat) (response : String) (i : Fin 2) : String :=
  let response := if response != "" then response ++ "&" else response
  let n := toString i.val
  let response := response ++ ("s" ++ n ++ "=")
  let response :=
    if s._timers i > 0 then response ++ "0"
    else
      if s._results i = 0 ∨ msub now (s._stopped i) > 8000 then response ++ "1"
      else response ++ "0"
  if s._timers i > 0 then
    let response := response ++ ("&t" ++ n ++ "=" ++ toString (msub now (s._timers 0)))
    response ++ ("&r" ++ n ++ "=1")
  else
    let response := response ++ ("&t" ++ n ++ "=" ++ toString (s._results 0))
    response ++ ("&r" ++ n ++ "=0")

/-- The method `TimerServer::getResponse` (server.cpp 282-310).  The brightness table
`_matrixBrightness` is declared in `server.h` and is a parameter here. -/
def getResponse (_matrixBrightness : Nat → Nat) (s : State) (now : Nat) : String :=
  [(0 : Fin 2), 1].foldl (getResponseStep s now)
    ("b=" ++ toString (_matrixBrightness s._matrixBrightnessState))

/-- One iteration of the loop of `idleReset` (server.cpp 314-315). -/
def idleResetStep (now : Nat) (s : State) (i : Fin 2) : State :=
  if s._stopped i = 0 then s
  else if msub now (s._stopped i) > 300000 then timerReset s ((i.val : Nat) : Int) else s

/-- The method `TimerServer::idleReset` (server.cpp 312-317). -/
def idleReset (s : State) (now : Nat) : State :=
  [(0 : Fin 2), 1].foldl (idleResetStep now) s

/-- A call of one of the state-changing methods, with its arguments. -/
inductive Call where
  | timerSet (timer : Fin 2) (stop ignoreMinInterval : Bool)
  | timerReset (timer : Int)
  | timerToggle (timer : Fin 2)
  | idleReset
  | execMsg (params : ParameterSet)
  | clientPinged (timer : Fin 2) (stop waiting : Bool)
  | pingCheck

/-- The state after one call made at clock value `now`. -/
def Call.apply (s : State) (now : Nat) : Call → State
  | .timerSet timer stop ignoreMinInterval => TimerServer.timerSet s now timer stop ignoreMinInterval
  | .timerReset timer => TimerServer.timerReset s timer
  | .timerToggle timer => TimerServer.timerToggle s now timer
  | .idleReset => TimerServer.idleReset s now
  | .execMsg params => (TimerServer.execMsg s now params).1
  | .clientPinged timer stop waiting => (TimerServer.clientPinged s now timer stop waiting).1
  | .pingCheck => (TimerServer.pingCheck s now).1

/-- The state after a sequence of calls, each made at its own clock value. -/
def run (s : State) : List (Nat × Call) → State
  | [] => s
  | (now, c) :: rest => run (c.apply s now) rest

/-- A slot never has both `_timers[i] > 0` and `_stopped[i] > 0`. -/
def Exclusive (s : State) : Prop :=
  ∀ i : Fin 2, ¬ (s._timers i > 0 ∧ s._stopped i > 0)

/-- Timer 0 running since clock value 1000, everything else zero. -/
def runningAt1000 : State :=
  { State.init 0 with _timers := Function.update (fun _ => 0) 0 1000 }

/-- A reset request for timer 0 that also carries the ping and stop-side keys. -/
def resetWithPing : ParameterSet :=
  [⟨"p", "1"⟩, ⟨"r", "1"⟩, ⟨"t", "0"⟩, ⟨"s", "1"⟩]

/-- The staleness test of the loop of `pingCheck`, on the state the sweep starts from. -/
def staleC (s : State) (now : Nat) (i : Fin 4) : Prop :=
  s._pings i > 0 ∧ madd (madd (s._pings i) s._pingInterval) 500 < now

instance instDecidableStaleC (s : State) (now : Nat) (i : Fin 4) :
    Decidable (staleC s now i) := by
  unfold staleC; infer_instance

/-- Ping interval 1000, endpoint 2 last pinged at 100, last sweep at 1500. -/
def stalePing : State :=
  { State.init 1000 with _pings := Function.update (fun _ => 0) 2 100, _lastPingCheck := 1500 }

/-- Timer 0 stopped at 7000 with result 6000, everything else zero. -/
def stoppedAt7000 : State :=
  { State.init 0 with
    _results := Function.update (fun _ => 0) 0 6000
    _stopped := Function.update (fun _ => 0) 0 7000 }

/-- Timer 1 started at 1000 and stopped at 8000 (result 7000); timer 0 never used. -/
def stoppedSlot1 : State :=
  run (State.init 1000) [(1000, .timerSet 1 false false), (8000, .timerSet 1 true false)]

/-- Timer 1 started at 1000 and still running; timer 0 never used. -/
def runningSlot1 : State :=
  run (State.init 1000) [(1000, .timerSet 1 false false)]

/-! ## Arithmetic of the millisecond counter -/

/-- Without wrap-around (`x` not after `now`, `now` a 32-bit value) the counter difference
is the plain difference. -/
theorem msub_eq {now x : Nat} (hle : x ≤ now) (hnow : now < WORD) : msub now x = now - x := by
  unfold msub
  unfold WORD at *
  omega

/-- A sum that fits in 32 bits is the plain sum. -/
theorem madd_eq {a b : Nat} (h : a + b < WORD) : madd a b = a + b := by
  unfold madd
  exact Nat.mod_eq_of_lt h

/-! ## timerSet -/

/-- C1: a Running slot `i` (started at `s > 0`) that is asked to stop with the minimum
duration guard active, at a clock value `now ≥ s` without wrap-around, is left entirely
unchanged when `now - s < 5000`; when `now - s ≥ 5000` the call sets `_results[i] = now - s`,
`_stopped[i] = now` and `_timers[i] = 0`. -/
theorem timerSet_stop_min_interval (st : State) (i : Fin 2) (s now : Nat)
    (hs : 0 < s) (hrun : st._timers i = s) (hle : s ≤ now) (hnow : now < WORD) :
    (now - s < 5000 → timerSet st now i true false = st) ∧
    (5000 ≤ now - s →
      (timerSet st now i true false)._results i = now - s ∧
      (timerSet st now i true false)._stopped i = now ∧
      (timerSet st now i true false)._timers i = 0) := by
  have hm : msub now (st._timers i) = now - s := by rw [hrun]; exact msub_eq hle hnow
  constructor
  · intro h
    simp [timerSet, hm, h]
  · intro h
    have h1 : ¬ (now - s < 5000) := by omega
    have h2 : 0 < st._timers i := by omega
    simp [timerSet, hm, h1, h2]

/-- C1 at a concrete input: timer 0 started at 1000 keeps running when stopped at 3000 and
is stopped with result 6000 when stopped at 7000. -/
theorem timerSet_stop_min_interval_witness :
    timerSet runningAt1000 3000 0 true false = runningAt1000 ∧
    (timerSet runningAt1000 7000 0 true false)._results 0 = 6000 ∧
    (timerSet runningAt1000 7000 0 true false)._stopped 0 = 7000 ∧
    (timerSet runningAt1000 7000 0 true false)._timers 0 = 0 :=
  ⟨(timerSet_stop_min_interval runningAt1000 0 1000 3000 (by decide) (by decide) (by decide)
      (by decide)).1 (by decide),
   (timerSet_stop_min_interval runningAt1000 0 1000 7000 (by decide) (by decide) (by decide)
      (by decide)).2 (by decide)⟩

/-- The toggle timestamps are not touched by `timerSet`. -/
theorem timerSet_lastTimerToggle (s : State) (now : Nat) (t : Fin 2) (stop ig : Bool) :
    (timerSet s now t stop ig)._lastTimerToggle = s._lastTimerToggle := by
  unfold timerSet
  split_ifs <;> rfl

/-! ## timerToggle -/

/-- A debounced toggle returns the state it was given. -/
theorem timerToggle_of_debounced (s : State) (now : Nat) (i : Fin 2)
    (h : s._lastTimerToggle i > 0
      ∧ madd (s._lastTimerToggle i) _timerToggleInterval > now) :
    timerToggle s now i = s := by
  unfold timerToggle
  rw [if_pos h]

/-- An accepted toggle records the clock value as the last toggle of its timer. -/
theorem timerToggle_lastTimerToggle_of_accepted (s : State) (now : Nat) (i : Fin 2)
    (hacc : ¬ (s._lastTimerToggle i > 0
      ∧ madd (s._lastTimerToggle i) _timerToggleInterval > now)) :
    (timerToggle s now i)._lastTimerToggle i = now := by
  unfold timerToggle
  rw [if_neg hacc]
  dsimp only
  split_ifs <;> simp [timerSet_lastTimerToggle]

/-- C4, as stated, fails at two inputs, both on the all-zero state and timer 0.
(1) `t1 = 0`, `t2 = 1`: the first toggle is accepted but stores `0`, the "no toggle yet"
value, as last-toggle timestamp and as start time, so the second toggle is accepted too and
starts the timer at 1.  (2) `t1 = 4294967196`, `t2 = 4294967200`: the sum
`_lastTimerToggle[0] + _timerToggleInterval` wraps to 100 in 32 bits, which is not greater
than `millis()`, so the second toggle is accepted as well and changes the state again. -/
theorem timerToggle_debounce_counterexample :
    (¬ ((State.init 0)._lastTimerToggle 0 > 0
        ∧ madd ((State.init 0)._lastTimerToggle 0) _timerToggleInterval > 0)
      ∧ 0 ≤ 1 ∧ 1 - 0 < 200
      ∧ timerToggle (timerToggle (State.init 0) 0 0) 1 0 ≠ timerToggle (State.init 0) 0 0)
    ∧ (¬ ((State.init 0)._lastTimerToggle 0 > 0
        ∧ madd ((State.init 0)._lastTimerToggle 0) _timerToggleInterval > 4294967196)
      ∧ 4294967196 ≤ 4294967200 ∧ 4294967200 - 4294967196 < 200
      ∧ timerToggle (timerToggle (State.init 0) 4294967196 0) 4294967200 0
          ≠ timerToggle (State.init 0) 4294967196 0) := by
  refine ⟨⟨by decide, by decide, by decide, ?_⟩, ⟨by decide, by decide, by decide, ?_⟩⟩
  · intro h
    exact absurd (congrArg (fun s => s._timers 0) h) (by decide)
  · intro h
    exact absurd (congrArg (fun s => s._timers 0) h) (by decide)

/-- C4, amended: for clock values `0 < t1 ≤ t2` with `t2 - t1 < 200` and no wrap-around of
the debounce window (`t1 + 200 < 2^32`), when `timerToggle(i)` is accepted at `t1`, a second
`timerToggle(i)` at `t2` leaves the whole state exactly as the first call left it. -/
theorem timerToggle_second_within_interval_ignored (s : State) (i : Fin 2) (t1 t2 : Nat)
    (h0 : 0 < t1) (_h12 : t1 ≤ t2) (hd : t2 - t1 < 200) (hw : t1 + 200 < WORD)
    (hacc : ¬ (s._lastTimerToggle i > 0
      ∧ madd (s._lastTimerToggle i) _timerToggleInterval > t1)) :
    timerToggle (timerToggle s t1 i) t2 i = timerToggle s t1 i := by
  have hl := timerToggle_lastTimerToggle_of_accepted s t1 i hacc
  have hdeb : (timerToggle s t1 i)._lastTimerToggle i > 0
      ∧ madd ((timerToggle s t1 i)._lastTimerToggle i) _timerToggleInterval > t2 := by
    rw [hl]
    refine ⟨h0, ?_⟩
    have : madd t1 _timerToggleInterval = t1 + 200 :=
      madd_eq (by simpa [_timerToggleInterval] using hw)
    omega
  exact timerToggle_of_debounced _ _ _ hdeb

/-- C4 amended, at a concrete input: toggles of timer 0 at 1000 and 1100 on the all-zero
state. -/
theorem timerToggle_second_within_interval_ignored_witness :
    timerToggle (timerToggle (State.init 0) 1000 0) 1100 0
      = timerToggle (State.init 0) 1000 0 :=
  timerToggle_second_within_interval_ignored (State.init 0) 0 1000 1100 (by decide)
    (by decide) (by decide) (by decide) (by decide)

/-- C5: an accepted `timerToggle(i)` at a clock value `now > 0` looks only at `_timers[i]`.
If `_timers[i] = 0` (whatever `_results[i]` and `_stopped[i]` are) the slot becomes Running:
`_timers[i] = now > 0`, `_stopped[i] = 0`, `_results[i]` kept.  If `_timers[i] > 0` the slot
becomes Stopped: `_timers[i] = 0`, `_stopped[i] = now` and `_results[i]` is the counter
difference `millis() - _timers[i]`, which is `now - _timers[i]` when the start is not after
`now` and `now` is a 32-bit value; there is no condition on the elapsed time, so the 5 s
guard is bypassed.  The other slot is unchanged. -/
theorem timerToggle_inspects_startedAt_only (s : State) (now : Nat) (i : Fin 2)
    (hnow : 0 < now)
    (hacc : ¬ (s._lastTimerToggle i > 0
      ∧ madd (s._lastTimerToggle i) _timerToggleInterval > now)) :
    (s._timers i = 0 →
      (timerToggle s now i)._timers i = now ∧ (timerToggle s now i)._timers i > 0
      ∧ (timerToggle s now i)._stopped i = 0
      ∧ (timerToggle s now i)._results i = s._results i) ∧
    (s._timers i > 0 →
      (timerToggle s now i)._timers i = 0
      ∧ (timerToggle s now i)._results i = msub now (s._timers i)
      ∧ (s._timers i ≤ now → now < WORD →
          (timerToggle s now i)._results i = now - s._timers i)
      ∧ (timerToggle s now i)._stopped i = now) ∧
    (∀ j : Fin 2, j ≠ i →
      (timerToggle s now i)._timers j = s._timers j
      ∧ (timerToggle s now i)._results j = s._results j
      ∧ (timerToggle s now i)._stopped j = s._stopped j) := by
  unfold timerToggle
  rw [if_neg hacc]
  refine ⟨?_, ?_, ?_⟩
  · intro h
    simp [timerSet, h, hnow]
  · intro h
    have h' : s._timers i ≠ 0 := by omega
    simp only [timerSet, h']
    simp [h]
    intro h1 h2
    exact msub_eq h1 h2
  · intro j hj
    simp only [timerSet]
    split_ifs <;> simp [Function.update_noteq hj]

/-- C5 at concrete inputs: toggling idle timer 0 at 1000 starts it; toggling timer 0,
running since 1000, at 2000 stops it after 1000 ms, less than the 5 s guard. -/
theorem timerToggle_inspects_startedAt_only_witness :
    (timerToggle (State.init 0) 1000 0)._timers 0 = 1000
    ∧ (timerToggle runningAt1000 2000 0)._timers 0 = 0
    ∧ (timerToggle runningAt1000 2000 0)._results 0 = 1000
    ∧ (timerToggle runningAt1000 2000 0)._stopped 0 = 2000 :=
  ⟨((timerToggle_inspects_startedAt_only (State.init 0) 1000 0 (by decide) (by decide)).1
      (by decide)).1,
   ((timerToggle_inspects_startedAt_only runningAt1000 2000 0 (by decide) (by decide)).2.1
      (by decide)).1,
   ((timerToggle_inspects_startedAt_only runningAt1000 2000 0 (by decide) (by decide)).2.1
      (by decide)).2.2.1 (by decide) (by decide),
   ((timerToggle_inspects_startedAt_only runningAt1000 2000 0 (by decide) (by decide)).2.1
      (by decide)).2.2.2⟩

/-! ## timerReset and execMsg -/

/-- The presence fields and the toggle timestamps are not touched by `timerReset`. -/
theorem timerReset_presence (s : State) (t : Int) :
    (timerReset s t)._pings = s._pings ∧ (timerReset s t)._waitPairing = s._waitPairing
    ∧ (timerReset s t)._lastPingCheck = s._lastPingCheck
    ∧ (timerReset s t)._lastTimerToggle = s._lastTimerToggle := by
  unfold timerReset clearSlot
  split_ifs <;> simp

/-- C2: `execMsg` follows the precedence table.  Without the key "t" the state is unchanged.
With it, `timer` is 0 exactly when the value of "t" is "0" (1 otherwise), and
(a) with "r" present only `timerReset(timer)` is performed (whatever other keys are
present), so the presence fields and the toggle timestamps are unchanged;
(b) else with "s" and "p" present only `clientPinged(timer, stop, waiting)` is performed,
with `stop = (s != "0")` and `waiting = (w present and equal to "1")`, so the timer slots
are unchanged;
(c) else with "s" present and "p" absent `timerSet(timer, stop)` is performed with the
minimum duration guard active;
(d) else (no "s") `timerToggle(timer)` is performed. -/
theorem execMsg_precedence (s : State) (now : Nat) (params : ParameterSet) (timer : Fin 2)
    (htimer : timer = 0 ↔ paramValue params "t" = "0") :
    (hasParam params "t" = false → execMsg s now params = (s, [])) ∧
    (hasParam params "t" = true → hasParam params "r" = true →
      execMsg s now params = (timerReset s ((timer.val : Nat) : Int), [])
      ∧ (execMsg s now params).1._pings = s._pings
      ∧ (execMsg s now params).1._waitPairing = s._waitPairing
      ∧ (execMsg s now params).1._lastPingCheck = s._lastPingCheck
      ∧ (execMsg s now params).1._lastTimerToggle = s._lastTimerToggle) ∧
    (hasParam params "t" = true → hasParam params "r" = false →
      hasParam params "s" = true → hasParam params "p" = true →
      execMsg s now params
        = clientPinged s now timer (decide (paramValue params "s" ≠ "0"))
            (hasParam params "w" && decide (paramValue params "w" = "1"))
      ∧ (execMsg s now params).1._timers = s._timers
      ∧ (execMsg s now params).1._results = s._results
      ∧ (execMsg s now params).1._stopped = s._stopped) ∧
    (hasParam params "t" = true → hasParam params "r" = false →
      hasParam params "s" = true → hasParam params "p" = false →
      execMsg s now params
        = (timerSet s now timer (decide (paramValue params "s" ≠ "0")) false, [])) ∧
    (hasParam params "t" = true → hasParam params "r" = false →
      hasParam params "s" = false →
      execMsg s now params = (timerToggle s now timer, [])) := by
  have ht : (if paramValue params "t" = "0" then (0 : Fin 2) else 1) = timer := by
    by_cases h : paramValue params "t" = "0"
    · rw [if_pos h]; exact (htimer.mpr h).symm
    · rw [if_neg h]
      have : timer ≠ 0 := fun h0 => h (htimer.mp h0)
      omega
  have hstop : (if paramValue params "s" = "0" then false else true)
      = decide (paramValue params "s" ≠ "0") := by
    by_cases h : paramValue params "s" = "0" <;> simp [h]
  refine ⟨?_, ?_, ?_, ?_, ?_⟩
  · intro h
    simp [execMsg, h]
  · intro h1 h2
    have : execMsg s now params = (timerReset s ((timer.val : Nat) : Int), []) := by
      simp only [execMsg, h1, h2, ht, if_true]
    rw [this]
    exact ⟨rfl, timerReset_presence s _⟩
  · intro h1 h2 h3 h4
    have : execMsg s now params
        = clientPinged s now timer (decide (paramValue params "s" ≠ "0"))
            (hasParam params "w" && decide (paramValue params "w" = "1")) := by
      simp only [execMsg, h1, h2, h3, h4, ht, hstop, if_true]
      simp
    rw [this]
    exact ⟨rfl, rfl, rfl, rfl⟩
  · intro h1 h2 h3 h4
    simp only [execMsg, h1, h2, h3, h4, ht, hstop, if_true, ignoreMinIntervalDefault]
    simp
  · intro h1 h2 h3
    simp only [execMsg, h1, h2, h3, ht, if_true]
    simp

/-- C2 at concrete inputs, one per row of the table: a request without "t" is ignored; a
request with the keys "p", "r", "t" = "0" and "s" only resets timer 0; the ping request
`p=1&t=1&s=1` only pings the stop side of timer 1; the request `t=0&s=1` is a guarded stop
of timer 0; the request `t=1&p=1` toggles timer 1. -/
theorem execMsg_precedence_witness :
    execMsg runningAt1000 5000 [⟨"s", "1"⟩] = (runningAt1000, [])
    ∧ execMsg runningAt1000 5000 resetWithPing = (timerReset runningAt1000 0, [])
    ∧ execMsg runningAt1000 5000 [⟨"p", "1"⟩, ⟨"t", "1"⟩, ⟨"s", "1"⟩]
        = clientPinged runningAt1000 5000 1 true false
    ∧ execMsg runningAt1000 5000 [⟨"t", "0"⟩, ⟨"s", "1"⟩]
        = (timerSet runningAt1000 5000 0 true false, [])
    ∧ execMsg runningAt1000 5000 [⟨"t", "1"⟩, ⟨"p", "1"⟩]
        = (timerToggle runningAt1000 5000 1, []) :=
  ⟨(execMsg_precedence runningAt1000 5000 [⟨"s", "1"⟩] 1 (by decide)).1 (by decide),
   ((execMsg_precedence runningAt1000 5000 resetWithPing 0 (by decide)).2.1
      (by decide) (by decide)).1,
   ((execMsg_precedence runningAt1000 5000 [⟨"p", "1"⟩, ⟨"t", "1"⟩, ⟨"s", "1"⟩] 1
      (by decide)).2.2.1 (by decide) (by decide) (by decide) (by decide)).1,
   (execMsg_precedence runningAt1000 5000 [⟨"t", "0"⟩, ⟨"s", "1"⟩] 0
      (by decide)).2.2.2.1 (by decide) (by decide) (by decide) (by decide),
   (execMsg_precedence runningAt1000 5000 [⟨"t", "1"⟩, ⟨"p", "1"⟩] 1
      (by decide)).2.2.2.2 (by decide) (by decide) (by decide)⟩

/-! ## clientPinged -/

/-- The endpoint index is `2 * timer + stop`. -/
theorem endpoint_val (timer : Fin 2) (stop : Bool) :
    (endpoint timer stop).val = 2 * timer.val + (if stop then 1 else 0) := by
  fin_cases timer <;> cases stop <;> rfl

/-- Different (timer, side) pairs address different endpoints. -/
theorem endpoint_injective (timer timer2 : Fin 2) (stop stop2 : Bool)
    (h : endpoint timer2 stop2 = endpoint timer stop) : timer2 = timer ∧ stop2 = stop := by
  revert h
  fin_cases timer <;> fin_cases timer2 <;> cases stop <;> cases stop2 <;> decide

/-- C8: at a clock value `now > 0`, `clientPinged(timer, stop, waiting)` addresses endpoint
`n = 2 * timer + (stop ? 1 : 0)`, which is below 4 and distinct for the four (timer, side)
pairs; it prints the connect line iff `_pings[n]` was 0 before the call; it sets
`_pings[n] = now` and `_waitPairing[n] = waiting`; it leaves the other three endpoints and
both timer slots unchanged; and a second ping of the same endpoint right after prints
nothing. -/
theorem clientPinged_effect (s : State) (now : Nat) (timer : Fin 2) (stop waiting : Bool)
    (hnow : 0 < now) :
    (endpoint timer stop).val = 2 * timer.val + (if stop then 1 else 0)
    ∧ (endpoint timer stop).val < 4
    ∧ (∀ (timer2 : Fin 2) (stop2 : Bool),
        endpoint timer2 stop2 = endpoint timer stop → timer2 = timer ∧ stop2 = stop)
    ∧ (s._pings (endpoint timer stop) = 0 →
        (clientPinged s now timer stop waiting).2 = [connectLine timer stop])
    ∧ (s._pings (endpoint timer stop) ≠ 0 → (clientPinged s now timer stop waiting).2 = [])
    ∧ (clientPinged s now timer stop waiting).1._pings (endpoint timer stop) = now
    ∧ (clientPinged s now timer stop waiting).1._waitPairing (endpoint timer stop) = waiting
    ∧ (∀ m : Fin 4, m ≠ endpoint timer stop →
        (clientPinged s now timer stop waiting).1._pings m = s._pings m
        ∧ (clientPinged s now timer stop waiting).1._waitPairing m = s._waitPairing m)
    ∧ (clientPinged s now timer stop waiting).1._timers = s._timers
    ∧ (clientPinged s now timer stop waiting).1._results = s._results
    ∧ (clientPinged s now timer stop waiting).1._stopped = s._stopped
    ∧ (∀ (now2 : Nat) (waiting2 : Bool),
        (clientPinged (clientPinged s now timer stop waiting).1 now2 timer stop waiting2).2
          = []) := by
  refine ⟨endpoint_val timer stop, (endpoint timer stop).isLt,
    fun t2 s2 h => endpoint_injective timer t2 stop s2 h, ?_, ?_, ?_, ?_, ?_, rfl, rfl, rfl, ?_⟩
  · intro h
    simp [clientPinged, h]
  · intro h
    simp [clientPinged, h]
  · simp [clientPinged]
  · simp [clientPinged]
  · intro m hm
    simp [clientPinged, Function.update_noteq hm]
  · intro now2 waiting2
    have hne : now ≠ 0 := by omega
    simp [clientPinged, hne]

/-- C8 at a concrete input: the stop side of timer 1 pings at 40 (connect line printed,
`_pings[3] = 40`) and again at 90 (nothing printed). -/
theorem clientPinged_effect_witness :
    (clientPinged (State.init 1000) 40 1 true false).2 = ["[CLIENT][T1][STOP] Connected"]
    ∧ (clientPinged (State.init 1000) 40 1 true false).1._pings 3 = 40
    ∧ (clientPinged (clientPinged (State.init 1000) 40 1 true false).1 90 1 true false).2
        = [] :=
  ⟨(clientPinged_effect (State.init 1000) 40 1 true false (by decide)).2.2.2.1 (by decide),
   (clientPinged_effect (State.init 1000) 40 1 true false (by decide)).2.2.2.2.2.1,
   (clientPinged_effect (State.init 1000) 40 1 true false (by decide)).2.2.2.2.2.2.2.2.2.2.2
      90 false⟩

/-! ## pingCheck -/

/-- A sweep that is not rate-limited: the state and the printed lines in closed form. -/
theorem pingCheck_scan (s : State) (now : Nat)
    (h : ¬ (s._lastPingCheck > 0 ∧ madd s._lastPingCheck s._pingInterval > now)) :
    pingCheck s now =
      ({ s with
          _lastPingCheck := now
          _pings := fun i => if staleC s now i then 0 else s._pings i },
        (if staleC s now 0 then [disconnectLine 0] else [])
          ++ (if staleC s now 1 then [disconnectLine 1] else [])
          ++ (if staleC s now 2 then [disconnectLine 2] else [])
          ++ (if staleC s now 3 then [disconnectLine 3] else [])) := by
  unfold pingCheck
  rw [if_neg h]
  simp only [List.foldl, pingCheckStep, staleC]
  by_cases h0 : s._pings 0 > 0 ∧ madd (madd (s._pings 0) s._pingInterval) 500 < now <;>
  by_cases h1 : s._pings 1 > 0 ∧ madd (madd (s._pings 1) s._pingInterval) 500 < now <;>
  by_cases h2 : s._pings 2 > 0 ∧ madd (madd (s._pings 2) s._pingInterval) 500 < now <;>
  by_cases h3 : s._pings 3 > 0 ∧ madd (madd (s._pings 3) s._pingInterval) 500 < now <;>
  · simp [h0, h1, h2, h3]
    funext i
    fin_cases i <;> simp [h0, h1, h2, h3]

/-- The four disconnect lines are distinct: in the output of a scan, the line of endpoint
`i` occurs once if `i` was selected and not at all otherwise. -/
theorem count_disconnectLine (p : Fin 4 → Prop) [DecidablePred p] (i : Fin 4) :
    ((if p 0 then [disconnectLine 0] else [])
      ++ (if p 1 then [disconnectLine 1] else [])
      ++ (if p 2 then [disconnectLine 2] else [])
      ++ (if p 3 then [disconnectLine 3] else [])).count (disconnectLine i)
      = if p i then 1 else 0 := by
  by_cases h0 : p 0 <;> by_cases h1 : p 1 <;> by_cases h2 : p 2 <;> by_cases h3 : p 3 <;>
    fin_cases i <;>
    simp only [Fin.zero_eta, Fin.mk_one, Fin.reduceFinMk, h0, h1, h2, h3, if_true, if_false] <;>
    decide

/-- Number of disconnect lines `pingCheck` prints for endpoint `i`. -/
theorem pingCheck_count (s : State) (now : Nat) (i : Fin 4) :
    (pingCheck s now).2.count (disconnectLine i)
      = if ¬ (s._lastPingCheck > 0 ∧ madd s._lastPingCheck s._pingInterval > now)
          ∧ staleC s now i then 1 else 0 := by
  by_cases h : s._lastPingCheck > 0 ∧ madd s._lastPingCheck s._pingInterval > now
  · have : pingCheck s now = (s, []) := by unfold pingCheck; rw [if_pos h]
    simp [this, h]
  · rw [pingCheck_scan s now h]
    simp only [h, not_false_eq_true, true_and]
    exact count_disconnectLine (fun j => staleC s now j) i

/-- The timer slots are not touched by `pingCheck`. -/
theorem pingCheck_slots (s : State) (now : Nat) :
    (pingCheck s now).1._timers = s._timers ∧ (pingCheck s now).1._results = s._results
    ∧ (pingCheck s now).1._stopped = s._stopped := by
  by_cases h : s._lastPingCheck > 0 ∧ madd s._lastPingCheck s._pingInterval > now
  · have : pingCheck s now = (s, []) := by unfold pingCheck; rw [if_pos h]
    rw [this]; exact ⟨rfl, rfl, rfl⟩
  · rw [pingCheck_scan s now h]; exact ⟨rfl, rfl, rfl⟩

/-- C7: for every state, ping interval and clock value `now`, without wrap-around (the sums
`_lastPingCheck + _pingInterval` and `_pings[i] + _pingInterval + 500` fit in 32 bits):
`pingCheck` returns the state unchanged and prints nothing when `_lastPingCheck > 0` and
`now < _lastPingCheck + _pingInterval`; otherwise it sets `_lastPingCheck = now` and, for
each of the four endpoints, clears `_pings[i]` and prints its disconnect line exactly once
iff `_pings[i] > 0` and `_pings[i] + _pingInterval + 500 < now`, leaving every other
`_pings[i]` as it was.  An endpoint with `_pings[i] = 0` is skipped, and after an endpoint
was cleared a further sweep (at any clock value) prints no disconnect line for it.  The
statement holds for every `now`, in particular for `now > 0`. -/
theorem pingCheck_sweep (s : State) (now : Nat)
    (hchk : s._lastPingCheck + s._pingInterval < WORD)
    (hsum : ∀ i : Fin 4, s._pings i + s._pingInterval + 500 < WORD) :
    (0 < s._lastPingCheck ∧ now < s._lastPingCheck + s._pingInterval →
      pingCheck s now = (s, [])) ∧
    (¬ (0 < s._lastPingCheck ∧ now < s._lastPingCheck + s._pingInterval) →
      (pingCheck s now).1._lastPingCheck = now
      ∧ ∀ i : Fin 4,
        (0 < s._pings i ∧ s._pings i + s._pingInterval + 500 < now →
          (pingCheck s now).1._pings i = 0
          ∧ (pingCheck s now).2.count (disconnectLine i) = 1
          ∧ ∀ now2 : Nat,
              (pingCheck (pingCheck s now).1 now2).2.count (disconnectLine i) = 0)
        ∧ (¬ (0 < s._pings i ∧ s._pings i + s._pingInterval + 500 < now) →
          (pingCheck s now).1._pings i = s._pings i
          ∧ (pingCheck s now).2.count (disconnectLine i) = 0)) ∧
    (∀ i : Fin 4, s._pings i = 0 →
      (pingCheck s now).1._pings i = 0
      ∧ (pingCheck s now).2.count (disconnectLine i) = 0) := by
  have hg : (s._lastPingCheck > 0 ∧ madd s._lastPingCheck s._pingInterval > now)
      ↔ (0 < s._lastPingCheck ∧ now < s._lastPingCheck + s._pingInterval) := by
    rw [madd_eq hchk]
  have hst : ∀ i : Fin 4, staleC s now i
      ↔ (0 < s._pings i ∧ s._pings i + s._pingInterval + 500 < now) := by
    intro i
    have h1 : s._pings i + s._pingInterval < WORD := by have := hsum i; omega
    unfold staleC
    rw [madd_eq h1, madd_eq (hsum i)]
  have hzero : ∀ (t : State) (n : Nat) (i : Fin 4), t._pings i = 0 →
      (pingCheck t n).2.count (disconnectLine i) = 0 := by
    intro t n i hi
    rw [pingCheck_count]
    have : ¬ staleC t n i := by unfold staleC; omega
    simp [this]
  refine ⟨?_, ?_, ?_⟩
  · intro h
    unfold pingCheck
    rw [if_pos (hg.mpr h)]
  · intro h
    have hn := mt hg.mp h
    refine ⟨by rw [pingCheck_scan s now hn], ?_⟩
    intro i
    constructor
    · intro hi
      have hs := (hst i).mpr hi
      have hp : (pingCheck s now).1._pings i = 0 := by
        rw [pingCheck_scan s now hn]; simp [hs]
      refine ⟨hp, ?_, fun now2 => hzero _ now2 i hp⟩
      rw [pingCheck_count]; simp [hn, hs]
    · intro hi
      have hs := mt (hst i).mp hi
      constructor
      · rw [pingCheck_scan s now hn]; simp [hs]
      · rw [pingCheck_count]; simp [hs]
  · intro i hi
    constructor
    · by_cases h : s._lastPingCheck > 0 ∧ madd s._lastPingCheck s._pingInterval > now
      · have : pingCheck s now = (s, []) := by unfold pingCheck; rw [if_pos h]
        rw [this]; exact hi
      · rw [pingCheck_scan s now h]
        simp [hi]
    · exact hzero s now i hi

/-- C7 at a concrete input (interval 1000, endpoint 2 pinged at 100, last sweep at 1500):
the sweep at 2000 is rate-limited; the sweep at 2500 clears endpoint 2 and prints its
disconnect line once, and prints none for endpoint 0. -/
theorem pingCheck_sweep_witness :
    pingCheck stalePing 2000 = (stalePing, [])
    ∧ (pingCheck stalePing 2500).1._pings 2 = 0
    ∧ (pingCheck stalePing 2500).2.count (disconnectLine 2) = 1
    ∧ (pingCheck stalePing 2500).2.count (disconnectLine 0) = 0 :=
  ⟨(pingCheck_sweep stalePing 2000 (by decide) (by decide)).1 (by decide),
   (((pingCheck_sweep stalePing 2500 (by decide) (by decide)).2.1
      (by decide)).2 2).1 (by decide) |>.1,
   (((pingCheck_sweep stalePing 2500 (by decide) (by decide)).2.1
      (by decide)).2 2).1 (by decide) |>.2.1,
   ((pingCheck_sweep stalePing 2500 (by decide) (by decide)).2.2 0
      (by decide)).2⟩

/-! ## timerReset and idleReset -/

/-- Resetting with a slot index performs the three assignments on that slot. -/
theorem timerReset_index (s : State) (i : Fin 2) :
    timerReset s ((i.val : Nat) : Int) = clearSlot s i := by
  fin_cases i <;> simp [timerReset]

/-- The call `timerReset(i)` zeroes slot `i` and keeps the other slot. -/
theorem timerReset_slot (s : State) (i : Fin 2) :
    (timerReset s ((i.val : Nat) : Int))._timers i = 0
    ∧ (timerReset s ((i.val : Nat) : Int))._results i = 0
    ∧ (timerReset s ((i.val : Nat) : Int))._stopped i = 0
    ∧ (∀ j : Fin 2, j ≠ i →
        (timerReset s ((i.val : Nat) : Int))._timers j = s._timers j
        ∧ (timerReset s ((i.val : Nat) : Int))._results j = s._results j
        ∧ (timerReset s ((i.val : Nat) : Int))._stopped j = s._stopped j) := by
  rw [timerReset_index]
  refine ⟨by simp [clearSlot], by simp [clearSlot], by simp [clearSlot], ?_⟩
  intro j hj
  simp [clearSlot, Function.update_noteq hj]

/-- The call `timerReset(-1)` zeroes both slots. -/
theorem timerReset_all (s : State) (i : Fin 2) :
    (timerReset s (-1))._timers i = 0 ∧ (timerReset s (-1))._results i = 0
    ∧ (timerReset s (-1))._stopped i = 0 := by
  fin_cases i <;> simp [timerReset, clearSlot]

/-- The slot `i` after `idleReset`, in terms of the counter difference the code computes. -/
theorem idleReset_slot (s : State) (now : Nat) (i : Fin 2) :
    (idleReset s now)._timers i
        = (if s._stopped i ≠ 0 ∧ msub now (s._stopped i) > 300000 then 0 else s._timers i)
    ∧ (idleReset s now)._results i
        = (if s._stopped i ≠ 0 ∧ msub now (s._stopped i) > 300000 then 0 else s._results i)
    ∧ (idleReset s now)._stopped i
        = (if s._stopped i ≠ 0 ∧ msub now (s._stopped i) > 300000 then 0
            else s._stopped i) := by
  simp only [idleReset, List.foldl, idleResetStep]
  by_cases a0 : s._stopped 0 = 0 <;> by_cases b0 : msub now (s._stopped 0) > 300000 <;>
  by_cases a1 : s._stopped 1 = 0 <;> by_cases b1 : msub now (s._stopped 1) > 300000 <;>
  fin_cases i <;> simp [a0, b0, a1, b1, timerReset, clearSlot]

/-- C9: for every state and clock value `now` without wrap-around (`now` a 32-bit value, no
stop timestamp after `now`), `idleReset` zeroes `_timers[i]`, `_results[i]` and `_stopped[i]`
iff `_stopped[i] != 0` and `now - _stopped[i] > 300000`, and leaves every other slot as it
was.  A reset (`timerReset(i)` or `timerReset(-1)`) and a restart (`timerSet(i, false)` on a
slot that is not running) leave `_stopped[i] = 0`, and a slot with `_stopped[i] = 0` is not
touched by the sweep, at any clock value. -/
theorem idleReset_sweep (s : State) (now : Nat) (hnow : now < WORD)
    (hle : ∀ i : Fin 2, s._stopped i ≤ now) :
    (∀ i : Fin 2,
      (s._stopped i ≠ 0 ∧ now - s._stopped i > 300000 →
        (idleReset s now)._timers i = 0 ∧ (idleReset s now)._results i = 0
        ∧ (idleReset s now)._stopped i = 0)
      ∧ (¬ (s._stopped i ≠ 0 ∧ now - s._stopped i > 300000) →
        (idleReset s now)._timers i = s._timers i
        ∧ (idleReset s now)._results i = s._results i
        ∧ (idleReset s now)._stopped i = s._stopped i))
    ∧ (∀ i : Fin 2, (timerReset s ((i.val : Nat) : Int))._stopped i = 0
        ∧ (timerReset s (-1))._stopped i = 0)
    ∧ (∀ (i : Fin 2) (n : Nat) (ig : Bool), s._timers i = 0 →
        (timerSet s n i false ig)._stopped i = 0)
    ∧ (∀ (t : State) (n : Nat) (i : Fin 2), t._stopped i = 0 →
        (idleReset t n)._timers i = t._timers i
        ∧ (idleReset t n)._results i = t._results i
        ∧ (idleReset t n)._stopped i = t._stopped i) := by
  refine ⟨?_, ?_, ?_, ?_⟩
  · intro i
    have hm : msub now (s._stopped i) = now - s._stopped i := msub_eq (hle i) hnow
    obtain ⟨h1, h2, h3⟩ := idleReset_slot s now i
    rw [hm] at h1 h2 h3
    constructor
    · intro h
      rw [h1, h2, h3]
      simp [h]
    · intro h
      rw [h1, h2, h3]
      simp only [if_neg h, and_self]
  · intro i
    exact ⟨(timerReset_slot s i).2.2.1, (timerReset_all s i).2.2⟩
  · intro i n ig h
    simp [timerSet, h]
  · intro t n i h
    obtain ⟨h1, h2, h3⟩ := idleReset_slot t n i
    rw [h1, h2, h3]
    simp [h]

/-- C9 at a concrete input: timer 0, stopped at 7000 with result 6000, is reset by the sweep
at 307001 and kept by the sweep at 307000. -/
theorem idleReset_sweep_witness :
    (idleReset stoppedAt7000 307001)._results 0 = 0
    ∧ (idleReset stoppedAt7000 307000)._results 0 = 6000 :=
  ⟨(((idleReset_sweep stoppedAt7000 307001 (by decide) (by decide)).1 0).1 (by decide)).2.1,
   (((idleReset_sweep stoppedAt7000 307000 (by decide) (by decide)).1 0).2 (by decide)).2.1⟩

/-! ## The invariant: a slot is never both running and stopped -/

/-- The invariant only reads `_timers` and `_stopped`. -/
theorem Exclusive_congr {s t : State} (h1 : t._timers = s._timers)
    (h2 : t._stopped = s._stopped) (h : Exclusive s) : Exclusive t := by
  intro i
  rw [h1, h2]
  exact h i

/-- Every branch of `timerSet` keeps the invariant. -/
theorem timerSet_exclusive (s : State) (now : Nat) (t : Fin 2) (stop ig : Bool)
    (h : Exclusive s) : Exclusive (timerSet s now t stop ig) := by
  intro j
  have hj := h j
  unfold timerSet
  rcases eq_or_ne j t with rfl | e
  · split_ifs <;> simp_all
  · split_ifs <;> simp_all [Function.update_noteq e]

/-- Zeroing a slot keeps the invariant. -/
theorem clearSlot_exclusive (s : State) (i : Fin 2) (h : Exclusive s) :
    Exclusive (clearSlot s i) := by
  intro j
  have hj := h j
  unfold clearSlot
  rcases eq_or_ne j i with rfl | e
  · simp
  · simpa [Function.update_noteq e] using hj

/-- Every branch of `timerReset` keeps the invariant. -/
theorem timerReset_exclusive (s : State) (t : Int) (h : Exclusive s) :
    Exclusive (timerReset s t) := by
  unfold timerReset
  split_ifs
  · exact clearSlot_exclusive _ _ (clearSlot_exclusive _ _ h)
  · exact clearSlot_exclusive _ _ h
  · exact clearSlot_exclusive _ _ h
  · exact h

/-- Both outcomes of `timerToggle` keep the invariant. -/
theorem timerToggle_exclusive (s : State) (now : Nat) (t : Fin 2) (h : Exclusive s) :
    Exclusive (timerToggle s now t) := by
  unfold timerToggle
  by_cases hd : s._lastTimerToggle t > 0
      ∧ madd (s._lastTimerToggle t) _timerToggleInterval > now
  · rw [if_pos hd]; exact h
  · rw [if_neg hd]
    dsimp only
    split_ifs
    · exact timerSet_exclusive _ _ _ _ _ (Exclusive_congr rfl rfl h)
    · exact timerSet_exclusive _ _ _ _ _ (Exclusive_congr rfl rfl h)

/-- One iteration of the idle sweep keeps the invariant. -/
theorem idleResetStep_exclusive (now : Nat) (s : State) (i : Fin 2) (h : Exclusive s) :
    Exclusive (idleResetStep now s i) := by
  unfold idleResetStep
  split_ifs
  · exact h
  · exact timerReset_exclusive _ _ h
  · exact h

/-- The idle sweep keeps the invariant. -/
theorem idleReset_exclusive (s : State) (now : Nat) (h : Exclusive s) :
    Exclusive (idleReset s now) := by
  simp only [idleReset, List.foldl]
  exact idleResetStep_exclusive _ _ _ (idleResetStep_exclusive _ _ _ h)

/-- Every dispatch branch of `execMsg` keeps the invariant. -/
theorem execMsg_exclusive (s : State) (now : Nat) (params : ParameterSet)
    (h : Exclusive s) : Exclusive (execMsg s now params).1 := by
  unfold execMsg
  by_cases ht : hasParam params "t" = true
  · rw [if_pos ht]
    dsimp only
    by_cases hr : hasParam params "r" = true
    · rw [if_pos hr]; exact timerReset_exclusive _ _ h
    · rw [if_neg hr]
      by_cases hs : hasParam params "s" = true
      · rw [if_pos hs]
        by_cases hp : hasParam params "p" = true
        · rw [if_pos hp]; exact Exclusive_congr rfl rfl h
        · rw [if_neg hp]; exact timerSet_exclusive _ _ _ _ _ h
      · rw [if_neg hs]; exact timerToggle_exclusive _ _ _ h
  · rw [if_neg ht]; exact h

/-- Every call keeps the invariant, at any clock value. -/
theorem Call_apply_exclusive (s : State) (now : Nat) (c : Call) (h : Exclusive s) :
    Exclusive (c.apply s now) := by
  cases c with
  | timerSet t stop ig => exact timerSet_exclusive _ _ _ _ _ h
  | timerReset t => exact timerReset_exclusive _ _ h
  | timerToggle t => exact timerToggle_exclusive _ _ _ h
  | idleReset => exact idleReset_exclusive _ _ h
  | execMsg params => exact execMsg_exclusive _ _ _ h
  | clientPinged t stop w => exact Exclusive_congr rfl rfl h
  | pingCheck =>
    exact Exclusive_congr (pingCheck_slots s now).1 (pingCheck_slots s now).2.2 h

/-- A sequence of calls keeps the invariant. -/
theorem run_exclusive_of (calls : List (Nat × Call)) :
    ∀ s : State, Exclusive s → Exclusive (run s calls) := by
  induction calls with
  | nil => intro s h; exact h
  | cons c rest ih =>
    intro s h
    obtain ⟨now, c⟩ := c
    exact ih _ (Call_apply_exclusive s now c h)

/-- The all-zero state satisfies the invariant. -/
theorem init_exclusive (pingInterval : Nat) : Exclusive (State.init pingInterval) := by
  intro i
  simp [State.init]

/-- C10: in every state reached from the all-zero state (with any ping interval) by any
sequence of `timerSet`, `timerReset`, `timerToggle`, `idleReset`, `execMsg`, `clientPinged`
and `pingCheck` calls, at any clock values (so in particular at non-decreasing ones), no
slot has both `_timers[i] > 0` and `_stopped[i] > 0`; hence the idle sweep, at any clock
value, leaves a Running slot exactly as it is. -/
theorem reachable_exclusive (pingInterval : Nat) (calls : List (Nat × Call)) :
    (∀ i : Fin 2, ¬ ((run (State.init pingInterval) calls)._timers i > 0
        ∧ (run (State.init pingInterval) calls)._stopped i > 0))
    ∧ (∀ (i : Fin 2) (now : Nat), (run (State.init pingInterval) calls)._timers i > 0 →
        (idleReset (run (State.init pingInterval) calls) now)._timers i
            = (run (State.init pingInterval) calls)._timers i
        ∧ (idleReset (run (State.init pingInterval) calls) now)._results i
            = (run (State.init pingInterval) calls)._results i
        ∧ (idleReset (run (State.init pingInterval) calls) now)._stopped i
            = (run (State.init pingInterval) calls)._stopped i) := by
  have hex := run_exclusive_of calls _ (init_exclusive pingInterval)
  refine ⟨hex, ?_⟩
  intro i now hrun
  have h0 : (run (State.init pingInterval) calls)._stopped i = 0 := by
    have := hex i
    omega
  obtain ⟨h1, h2, h3⟩ := idleReset_slot (run (State.init pingInterval) calls) now i
  rw [h1, h2, h3]
  simp [h0]

/-! ## getResponse -/

/-- The response is never empty once it holds the brightness field. -/
theorem head_ne_empty (x : String) : ("b=" ++ x != "") = true := by
  have h : "b=" ++ x ≠ "" := by
    intro h
    have h2 := congrArg String.length h
    rw [String.length_append] at h2
    have h3 : "b=".length = 2 := by decide
    have h4 : "".length = 0 := by decide
    omega
  simpa [bne_iff_ne] using h

/-- Appending to a non-empty string gives a non-empty string. -/
theorem append_ne_empty (r x : String) (h : (r != "") = true) : (r ++ x != "") = true := by
  have h1 : r ≠ "" := by simpa [bne_iff_ne] using h
  have h2 : r ++ x ≠ "" := by
    intro e
    have e2 := congrArg String.length e
    rw [String.length_append] at e2
    have h4 : "".length = 0 := by decide
    have h5 : r.length = 0 := by omega
    exact h1 (by
      apply String.ext
      have := List.length_eq_zero.mp h5
      simpa using this)
  simpa [bne_iff_ne] using h2

/-- The three fields one loop iteration appends for index `i`: the `s` and `r` fields read
slot `i`, the value of the `t` field reads `_timers[0]` and `_results[0]`. -/
theorem getResponseStep_fields (s : State) (now : Nat) (r : String) (i : Fin 2)
    (hr : (r != "") = true) :
    getResponseStep s now r i
      = r ++ ("&s" ++ toString i.val ++ "="
          ++ (if s._timers i > 0 then "0"
              else if s._results i = 0 ∨ msub now (s._stopped i) > 8000 then "1" else "0")
          ++ "&t" ++ toString i.val ++ "="
          ++ (if s._timers i > 0 then toString (msub now (s._timers 0))
              else toString (s._results 0))
          ++ "&r" ++ toString i.val ++ "="
          ++ (if s._timers i > 0 then "1" else "0")) := by
  unfold getResponseStep
  simp only [hr, if_true]
  have e1 : ∀ x : String, "&" ++ ("s" ++ x) = "&s" ++ x := by
    intro x; rw [← String.append_assoc]; rfl
  split_ifs <;> simp only [String.append_assoc, e1] <;> rfl

/-- The whole response, field by field. -/
theorem getResponse_fields (b : Nat → Nat) (s : State) (now : Nat) :
    getResponse b s now
      = "b=" ++ toString (b s._matrixBrightnessState)
        ++ ("&s0="
          ++ (if s._timers 0 > 0 then "0"
              else if s._results 0 = 0 ∨ msub now (s._stopped 0) > 8000 then "1" else "0")
          ++ "&t0="
          ++ (if s._timers 0 > 0 then toString (msub now (s._timers 0))
              else toString (s._results 0))
          ++ "&r0="
          ++ (if s._timers 0 > 0 then "1" else "0"))
        ++ ("&s1="
          ++ (if s._timers 1 > 0 then "0"
              else if s._results 1 = 0 ∨ msub now (s._stopped 1) > 8000 then "1" else "0")
          ++ "&t1="
          ++ (if s._timers 1 > 0 then toString (msub now (s._timers 0))
              else toString (s._results 0))
          ++ "&r1="
          ++ (if s._timers 1 > 0 then "1" else "0")) := by
  unfold getResponse
  simp only [List.foldl]
  rw [getResponseStep_fields s now _ 0 (head_ne_empty _)]
  rw [getResponseStep_fields s now _ 1 (append_ne_empty _ _ (head_ne_empty _))]
  have k : ∀ (x k : String) (i : Fin 2), x ++ k ++ toString i.val ++ "="
      = x ++ (k ++ toString i.val ++ "=") := by
    intro x k i; simp only [String.append_assoc]
  rw [k _ "&t" 0, k _ "&r" 0, k _ "&t" 1, k _ "&r" 1]
  rfl

/-- C3 (the code departs from the claim): the `t1` field is computed from slot 0.  With
timer 1 stopped with result 7000 and timer 0 never used, the response at 9000 carries
`t1=0`, not `t1=7000`; with timer 1 running since 1000 and timer 0 never used, the response
at 3000 carries `t1=3000`, not `t1=2000`.  (Brightness table constant 5.) -/
theorem getResponse_t1_reads_slot0 :
    (stoppedSlot1._timers 1 = 0 ∧ stoppedSlot1._results 1 = 7000
      ∧ getResponse (fun _ => 5) stoppedSlot1 9000 = "b=5&s0=1&t0=0&r0=0&s1=0&t1=0&r1=0")
    ∧ (runningSlot1._timers 1 = 1000
      ∧ getResponse (fun _ => 5) runningSlot1 3000
          = "b=5&s0=1&t0=0&r0=0&s1=0&t1=3000&r1=1") := by
  decide

/-- C6: from any state, `timerReset(i)` for `i` in {0, 1} sets `_timers[i]`, `_results[i]`
and `_stopped[i]` to 0 and leaves the other slot unchanged, and `timerReset(-1)` does so
for both slots; and after `execMsg` handled a request with the key "t" of value "0" and the
key "r", the response built at any clock value is the brightness field followed by
`&s0=1&t0=0&r0=0` and then the fields of timer 1. -/
theorem timerReset_clears_and_response (b : Nat → Nat) (s : State) (now : Nat)
    (params : ParameterSet)
    (ht : hasParam params "t" = true) (h0 : paramValue params "t" = "0")
    (hr : hasParam params "r" = true) :
    (∀ i : Fin 2,
      (timerReset s ((i.val : Nat) : Int))._timers i = 0
      ∧ (timerReset s ((i.val : Nat) : Int))._results i = 0
      ∧ (timerReset s ((i.val : Nat) : Int))._stopped i = 0
      ∧ (∀ j : Fin 2, j ≠ i →
          (timerReset s ((i.val : Nat) : Int))._timers j = s._timers j
          ∧ (timerReset s ((i.val : Nat) : Int))._results j = s._results j
          ∧ (timerReset s ((i.val : Nat) : Int))._stopped j = s._stopped j))
    ∧ (∀ i : Fin 2,
      (timerReset s (-1))._timers i = 0 ∧ (timerReset s (-1))._results i = 0
      ∧ (timerReset s (-1))._stopped i = 0)
    ∧ (∀ now2 : Nat, ∃ post : String,
        getResponse b (execMsg s now params).1 now2
          = "b=" ++ toString (b s._matrixBrightnessState) ++ "&s0=1&t0=0&r0=0"
              ++ ("&s1=" ++ post)) := by
  refine ⟨timerReset_slot s, timerReset_all s, ?_⟩
  intro now2
  have he : (execMsg s now params).1 = timerReset s 0 := by
    simp [execMsg, ht, h0, hr]
  obtain ⟨h1, h2, _, _⟩ := timerReset_slot s 0
  have hb : (timerReset s 0)._matrixBrightnessState = s._matrixBrightnessState := by
    simp [timerReset, clearSlot]
  rw [he, getResponse_fields, hb]
  simp only [Fin.val_zero, Nat.cast_zero] at h1 h2
  simp only [h1, h2, lt_irrefl, gt_iff_lt, if_false, true_or, if_true]
  have regroup : ∀ A B C : String, "&s1=" ++ A ++ "&t1=" ++ B ++ "&r1=" ++ C
      = "&s1=" ++ (A ++ "&t1=" ++ B ++ "&r1=" ++ C) := by
    intro A B C; simp only [String.append_assoc]
  rw [regroup]
  exact ⟨_, rfl⟩

/-- C6 at a concrete input: timer 0 running since 1000, a reset request for timer 0 handled
at 5000, response built at 9000. -/
theorem timerReset_clears_and_response_witness :
    ∃ post : String,
      getResponse (fun _ => 5) (execMsg runningAt1000 5000 resetWithPing).1 9000
        = "b=" ++ toString 5 ++ "&s0=1&t0=0&r0=0" ++ ("&s1=" ++ post) :=
  (timerReset_clears_and_response (fun _ => 5) runningAt1000 5000 resetWithPing (by decide)
    (by decide) (by decide)).2.2 9000

end TimerServer
